import Mathlib

/-!
# Raylib-Makefile-Template: the application loop of `Template/src/main.c`

`main` opens a window, marks it resizable, and runs a frame loop that clears
the background to one of two colours depending on the space key, until the
windowing library reports a close request; it then closes the window and
returns `EXIT_SUCCESS`.

The program is a sequence of calls into the windowing library (raylib).  The
embedding threads the list of calls made so far (with the value each call
returned) through the program; the library is a mock that decides, from that
history, what the next call answers.  The frame loop need not terminate, so it
is run with a bound on the number of close-request checks.
-/

namespace RaylibTemplate

/-! ## Constants of the headers `raylib.h` and `stdlib.h` -/

/-- Colour value of `raylib.h`: `struct Color { unsigned char r, g, b, a; }`. -/
structure Color where
  r : Nat
  g : Nat
  b : Nat
  a : Nat
deriving DecidableEq, Repr

/-- Modelled from the spec: colour A, "a fixed purple RGB constant".  The header
`raylib.h` that defines `PURPLE` is not among the sources; the components are
those of raylib's `PURPLE`, `{ 200, 122, 255, 255 }`. -/
def PURPLE : Color := ⟨200, 122, 255, 255⟩

/-- Modelled from the spec: colour B, "a fixed sky blue RGB constant".  The
header `raylib.h` that defines `SKYBLUE` is not among the sources; the
components are those of raylib's `SKYBLUE`, `{ 102, 191, 255, 255 }`. -/
def SKYBLUE : Color := ⟨102, 191, 255, 255⟩

/-- Modelled from the spec: the designated key, "the space key".  The header
`raylib.h` that defines `KEY_SPACE` is not among the sources; 32 is raylib's
key code for the space bar. -/
def KEY_SPACE : Int := 32

/-- Modelled from the spec: the "resizable flag".  The header `raylib.h` that
defines `FLAG_WINDOW_RESIZABLE` is not among the sources; `0x00000004` is
raylib's value of the flag. -/
def FLAG_WINDOW_RESIZABLE : Nat := 4

/-- Modelled from the spec: "success (0-equivalent)".  `EXIT_SUCCESS` comes
from the system header `stdlib.h`, where it is 0. -/
def EXIT_SUCCESS : Int := 0

/-! ## The windowing library as seen from `main` -/

/-- What a call of `void InitWindow(int, int, const char *)` can do.  The
function has no return value, so a window that could not be created shows
either not at all to the caller (the call returns, the failure stays inside the
library) or as the end of the process inside the call. -/
inductive InitResult
  /-- The window was created and the call returned. -/
  | created
  /-- The window was not created and the call returned. -/
  | failedReturn
  /-- The window was not created and the library ended the process by
  `exit(status)`. -/
  | failedExit (status : Int)
deriving DecidableEq, Repr

/-- One library call made by `main`, with its arguments and, where the call
returns a value, the value it returned. -/
inductive Event
  | InitWindow (width height : Int) (title : String) (result : InitResult)
  | SetWindowState (flags : Nat)
  | WindowShouldClose (result : Bool)
  | BeginDrawing
  | IsKeyDown (key : Int) (result : Bool)
  | ClearBackground (color : Color)
  | EndDrawing
  | CloseWindow
deriving DecidableEq, Repr

/-- A mocked windowing library.  Each answer may depend on every call made
before it (`history`, oldest call first), which covers any deterministic mock
with internal state and any fixed script of user input.  Window creation is
the one call that may end the process; every other call returns. -/
structure Mock where
  /-- Outcome of `InitWindow(width, height, title)`, the first call. -/
  initWindow : Int → Int → String → InitResult
  /-- Answer of `WindowShouldClose()` after the calls in `history`. -/
  windowShouldClose : (history : List Event) → Bool
  /-- Answer of `IsKeyDown(key)` after the calls in `history`. -/
  isKeyDown : (history : List Event) → (key : Int) → Bool

/-- How a bounded run of the frame loop stands. -/
inductive LoopResult
  /-- The loop condition was false: control is past the loop. -/
  | exitedLoop (trace : List Event)
  /-- The bound on close-request checks is used up, control is at the top of
  the loop. -/
  | stillLooping (trace : List Event)
deriving DecidableEq, Repr

/-- How a bounded run of `main` stands. -/
inductive Outcome
  /-- The function `main` returned `status`. -/
  | returned (status : Int) (trace : List Event)
  /-- The library ended the process inside a call; `status` is the exit status
  the process reports, a value from 0 to 255. -/
  | exited (status : Int) (trace : List Event)
  /-- The frame loop is still running when the bound is used up. -/
  | running (trace : List Event)
deriving DecidableEq, Repr

/-- Calls made in the run, oldest first. -/
def Outcome.trace : Outcome → List Event
  | .returned _ t => t
  | .exited _ t => t
  | .running t => t

/-! ## The program -/

/-- The frame loop of `main` (lines 10 to 14), run for at most `fuel`
close-request checks on top of the calls `t` already made:
```
while (!WindowShouldClose()){
    BeginDrawing();
    ClearBackground(IsKeyDown(KEY_SPACE) ? PURPLE : SKYBLUE);
    EndDrawing();
}
```
-/
def loop (m : Mock) : Nat → List Event → LoopResult
  | 0, t => .stillLooping t
  | fuel + 1, t =>
    let close := m.windowShouldClose t
    let t := t ++ [Event.WindowShouldClose close]
    if close then .exitedLoop t
    else
      let t := t ++ [Event.BeginDrawing]
      let down := m.isKeyDown t KEY_SPACE
      let t := t ++ [Event.IsKeyDown KEY_SPACE down]
      let t := t ++ [Event.ClearBackground (if down then PURPLE else SKYBLUE)]
      let t := t ++ [Event.EndDrawing]
      loop m fuel t

set_option linter.unusedVariables false in
/-- The function `int main(int argc, char ** argv)` of `Template/src/main.c`,
against the mocked library `m`, with at most `fuel` close-request checks.
The parameters `argc` and `argv` are not used, as in the source.  When the
library ends the process by `exit(status)`, the exit status the process
reports is the low eight bits of `status`. -/
def main (m : Mock) (fuel : Nat) (argc : Int) (argv : List String) : Outcome :=
  match m.initWindow 640 480 "My Window!!" with
  | .failedExit status =>
    .exited (status % 256) [Event.InitWindow 640 480 "My Window!!" (.failedExit status)]
  | result =>
    let t := [Event.InitWindow 640 480 "My Window!!" result]
    let t := t ++ [Event.SetWindowState FLAG_WINDOW_RESIZABLE]
    match loop m fuel t with
    | .stillLooping t => .running t
    | .exitedLoop t =>
      let t := t ++ [Event.CloseWindow]
      .returned EXIT_SUCCESS t

/-! ## Observations on traces -/

/-- Number of close-request checks in a trace. -/
def closeChecks : List Event → Nat
  | [] => 0
  | Event.WindowShouldClose _ :: t => closeChecks t + 1
  | _ :: t => closeChecks t

/-- Number of key-state queries in a trace. -/
def keyQueries : List Event → Nat
  | [] => 0
  | Event.IsKeyDown _ _ :: t => keyQueries t + 1
  | _ :: t => keyQueries t

/-- Number of `BeginDrawing` calls in a trace. -/
def begins : List Event → Nat
  | [] => 0
  | Event.BeginDrawing :: t => begins t + 1
  | _ :: t => begins t

/-- Number of `EndDrawing` calls in a trace: the frames presented so far. -/
def framesDone : List Event → Nat
  | [] => 0
  | Event.EndDrawing :: t => framesDone t + 1
  | _ :: t => framesDone t

/-- The calls that draw a frame: `BeginDrawing`, `ClearBackground`,
`EndDrawing`. -/
def isFrameCall : Event → Bool
  | Event.BeginDrawing => true
  | Event.ClearBackground _ => true
  | Event.EndDrawing => true
  | _ => false

/-- The calls `main` makes outside the loop iterations: `InitWindow`,
`SetWindowState`, the close-request check answered true, `CloseWindow`. -/
def isLifecycleCall : Event → Bool
  | Event.InitWindow _ _ _ _ => true
  | Event.SetWindowState _ => true
  | Event.WindowShouldClose true => true
  | Event.CloseWindow => true
  | _ => false

/-- A mock that follows a script: window creation gives `init`, the `i`-th
close-request check (from 0) answers `close i`, and a query of `key` during
frame `i` (after `i` presented frames) answers `keys i key`. -/
def scripted (init : InitResult) (close : Nat → Bool) (keys : Nat → Int → Bool) : Mock where
  initWindow := fun _ _ _ => init
  windowShouldClose := fun history => close (closeChecks history)
  isKeyDown := fun history key => keys (framesDone history) key

/-! ## The run the specification describes -/

/-- The calls of one loop iteration as the specification lists them, for a
frame in which the space key is `down`: the close-request check at the top
(answered false), begin of the frame, the key query, the clear to purple when
the key is down and to sky blue otherwise, end of the frame. -/
def iteration (down : Bool) : List Event :=
  [Event.WindowShouldClose false, Event.BeginDrawing, Event.IsKeyDown KEY_SPACE down,
    Event.ClearBackground (if down then PURPLE else SKYBLUE), Event.EndDrawing]

/-- The calls of consecutive loop iterations, one per key state in the list. -/
def iterations : List Bool → List Event
  | [] => []
  | down :: rest => iteration down ++ iterations rest

/-- The library's answers along a run of the loop: starting at the top of the
loop after the calls `t`, the library answers the close-request check of each
iteration with false and the query of the space key in that iteration with the
next key state of the list. -/
def answers (m : Mock) : List Event → List Bool → Bool
  | _, [] => true
  | t, down :: rest =>
    !m.windowShouldClose t &&
    (m.isKeyDown (t ++ [Event.WindowShouldClose false, Event.BeginDrawing]) KEY_SPACE == down) &&
    answers m (t ++ iteration down) rest

/-- The calls of `main` before the frame loop (lines 6 and 8), when
`InitWindow` returned with `result`. -/
def prologue (result : InitResult) : List Event :=
  [Event.InitWindow 640 480 "My Window!!" result, Event.SetWindowState FLAG_WINDOW_RESIZABLE]

/-- Calls made in a bounded run of the frame loop, oldest first. -/
def LoopResult.trace : LoopResult → List Event
  | .exitedLoop t => t
  | .stillLooping t => t

/-- Every `ClearBackground` in the trace comes right after a query of the space
key and carries purple when that query answered "down", sky blue otherwise;
the recorded answer is the one the mock gives after the calls before it. -/
def ClearFollowsKey (m : Mock) (t : List Event) : Prop :=
  ∀ before c after, t = before ++ Event.ClearBackground c :: after →
    ∃ hist, before = hist ++ [Event.IsKeyDown KEY_SPACE (m.isKeyDown hist KEY_SPACE)] ∧
      c = if m.isKeyDown hist KEY_SPACE then PURPLE else SKYBLUE

/-- In every prefix of the trace the `BeginDrawing` and `EndDrawing` calls
alternate, starting with `BeginDrawing`: the prefix has as many of the one as
of the other, or one more `BeginDrawing`. -/
def Balanced (t : List Event) : Prop :=
  ∀ p rest, t = p ++ rest → framesDone p ≤ begins p ∧ begins p ≤ framesDone p + 1

/-- The relation `R before e after` holds at every position of the trace:
for every call `e` of the trace, with the calls `before` it and the calls
`after` it. -/
def Everywhere (R : List Event → Event → List Event → Prop) (l : List Event) : Prop :=
  ∀ before e after, l = before ++ e :: after → R before e after

/-! ## Shape of every run -/

theorem loop_shape (m : Mock) (fuel : Nat) (t : List Event) :
    ∃ ks : List Bool,
      (ks.length < fuel ∧
        loop m fuel t = .exitedLoop (t ++ iterations ks ++ [Event.WindowShouldClose true])) ∨
      (ks.length = fuel ∧ loop m fuel t = .stillLooping (t ++ iterations ks)) := by
  induction fuel generalizing t with
  | zero => exact ⟨[], Or.inr ⟨rfl, by simp [loop, iterations]⟩⟩
  | succ fuel ih =>
    by_cases hc : m.windowShouldClose t = true
    · exact ⟨[], Or.inl ⟨by simp, by simp [loop, hc, iterations]⟩⟩
    · have hc : m.windowShouldClose t = false := by simpa using hc
      obtain ⟨ks, h⟩ := ih (t ++ [Event.WindowShouldClose false] ++ [Event.BeginDrawing] ++
        [Event.IsKeyDown KEY_SPACE
          (m.isKeyDown (t ++ [Event.WindowShouldClose false] ++ [Event.BeginDrawing]) KEY_SPACE)] ++
        [Event.ClearBackground
          (if m.isKeyDown (t ++ [Event.WindowShouldClose false] ++ [Event.BeginDrawing]) KEY_SPACE
            then PURPLE else SKYBLUE)] ++ [Event.EndDrawing])
      refine ⟨m.isKeyDown (t ++ [Event.WindowShouldClose false] ++ [Event.BeginDrawing]) KEY_SPACE
        :: ks, ?_⟩
      rcases h with ⟨hl, h⟩ | ⟨hl, h⟩
      · left
        refine ⟨by simpa using hl, ?_⟩
        simp only [loop, hc]
        simpa [iterations, iteration] using h
      · right
        refine ⟨by simpa using hl, ?_⟩
        simp only [loop, hc]
        simpa [iterations, iteration] using h

theorem main_shape (m : Mock) (fuel : Nat) (argc : Int) (argv : List String) :
    (∃ status, m.initWindow 640 480 "My Window!!" = .failedExit status ∧
      main m fuel argc argv =
        .exited (status % 256) [Event.InitWindow 640 480 "My Window!!" (.failedExit status)]) ∨
    (∃ ks : List Bool,
      (∀ status, m.initWindow 640 480 "My Window!!" ≠ .failedExit status) ∧
      ((ks.length < fuel ∧ main m fuel argc argv = .returned EXIT_SUCCESS
          (prologue (m.initWindow 640 480 "My Window!!") ++ iterations ks ++
            [Event.WindowShouldClose true, Event.CloseWindow])) ∨
       (ks.length = fuel ∧ main m fuel argc argv = .running
          (prologue (m.initWindow 640 480 "My Window!!") ++ iterations ks)))) := by
  cases hi : m.initWindow 640 480 "My Window!!" with
  | failedExit status => exact Or.inl ⟨status, rfl, by simp [main, hi]⟩
  | created =>
    right
    obtain ⟨ks, h⟩ := loop_shape m fuel (prologue .created)
    refine ⟨ks, by simp, ?_⟩
    rcases h with ⟨hl, h⟩ | ⟨hl, h⟩
    · left
      refine ⟨hl, ?_⟩
      simp only [prologue, List.cons_append, List.nil_append] at h
      simp [main, hi, h, prologue]
    · right
      refine ⟨hl, ?_⟩
      simp only [prologue, List.cons_append, List.nil_append] at h
      simp [main, hi, h, prologue]
  | failedReturn =>
    right
    obtain ⟨ks, h⟩ := loop_shape m fuel (prologue .failedReturn)
    refine ⟨ks, by simp, ?_⟩
    rcases h with ⟨hl, h⟩ | ⟨hl, h⟩
    · left
      refine ⟨hl, ?_⟩
      simp only [prologue, List.cons_append, List.nil_append] at h
      simp [main, hi, h, prologue]
    · right
      refine ⟨hl, ?_⟩
      simp only [prologue, List.cons_append, List.nil_append] at h
      simp [main, hi, h, prologue]

/-! ## Runs that follow the library's answers -/

theorem answers_cons (m : Mock) (t : List Event) (k : Bool) (ks : List Bool)
    (h : answers m t (k :: ks) = true) :
    m.windowShouldClose t = false ∧
    m.isKeyDown (t ++ [Event.WindowShouldClose false, Event.BeginDrawing]) KEY_SPACE = k ∧
    answers m (t ++ iteration k) ks = true := by
  simpa [answers, and_assoc] using h

theorem loop_answers (m : Mock) (ks : List Bool) :
    ∀ (t : List Event) (fuel : Nat), answers m t ks = true →
      loop m (ks.length + fuel) t = loop m fuel (t ++ iterations ks) := by
  induction ks with
  | nil => intro t fuel _; simp [iterations]
  | cons k ks ih =>
    intro t fuel h
    obtain ⟨hc, hk, hrest⟩ := answers_cons m t k ks h
    have hk2 : m.isKeyDown (t ++ [Event.WindowShouldClose false] ++ [Event.BeginDrawing])
        KEY_SPACE = k := by simpa using hk
    have hlen : (k :: ks).length + fuel = (ks.length + fuel) + 1 := by simp; omega
    rw [hlen]
    simp only [loop, hc, hk2]
    have := ih (t ++ iteration k) fuel hrest
    simpa [iterations, iteration] using this

theorem loop_exits_of_answers (m : Mock) (ks : List Bool) (t : List Event) (fuel : Nat)
    (h : answers m t ks = true) (hclose : m.windowShouldClose (t ++ iterations ks) = true)
    (hfuel : ks.length < fuel) :
    loop m fuel t = .exitedLoop (t ++ iterations ks ++ [Event.WindowShouldClose true]) := by
  obtain ⟨f, rfl⟩ : ∃ f, fuel = ks.length + (f + 1) := ⟨fuel - ks.length - 1, by omega⟩
  rw [loop_answers m ks t (f + 1) h]
  simp [loop, hclose]

theorem loop_running_of_answers (m : Mock) (ks : List Bool) (t : List Event) (fuel : Nat)
    (h : answers m t ks = true) (hfuel : ks.length = fuel) :
    loop m fuel t = .stillLooping (t ++ iterations ks) := by
  subst hfuel
  have := loop_answers m ks t 0 h
  simpa [loop] using this

theorem loop_extends (m : Mock) (fuel : Nat) (t : List Event) :
    ∃ added, (loop m fuel t).trace = t ++ added := by
  obtain ⟨ks, ⟨_, h⟩ | ⟨_, h⟩⟩ := loop_shape m fuel t
  · exact ⟨iterations ks ++ [Event.WindowShouldClose true], by simp [h, LoopResult.trace]⟩
  · exact ⟨iterations ks, by simp [h, LoopResult.trace]⟩

theorem loop_shape_answers (m : Mock) (fuel : Nat) (t : List Event) :
    ∃ ks : List Bool, answers m t ks = true ∧
      ((ks.length < fuel ∧ m.windowShouldClose (t ++ iterations ks) = true ∧
        loop m fuel t = .exitedLoop (t ++ iterations ks ++ [Event.WindowShouldClose true])) ∨
      (ks.length = fuel ∧ loop m fuel t = .stillLooping (t ++ iterations ks))) := by
  induction fuel generalizing t with
  | zero => exact ⟨[], rfl, Or.inr ⟨rfl, by simp [loop, iterations]⟩⟩
  | succ fuel ih =>
    by_cases hc : m.windowShouldClose t = true
    · exact ⟨[], rfl, Or.inl ⟨by simp, by simpa [iterations] using hc,
        by simp [loop, hc, iterations]⟩⟩
    · have hc : m.windowShouldClose t = false := by simpa using hc
      obtain ⟨ks, hans, h⟩ := ih (t ++ iteration
        (m.isKeyDown (t ++ [Event.WindowShouldClose false, Event.BeginDrawing]) KEY_SPACE))
      refine ⟨m.isKeyDown (t ++ [Event.WindowShouldClose false, Event.BeginDrawing]) KEY_SPACE
        :: ks, by simp [answers, hc, hans], ?_⟩
      rcases h with ⟨hl, hclose, _⟩ | ⟨hl, _⟩
      · left
        have hclose2 : m.windowShouldClose (t ++ iterations
            (m.isKeyDown (t ++ [Event.WindowShouldClose false, Event.BeginDrawing]) KEY_SPACE
              :: ks)) = true := by
          simpa [iterations] using hclose
        exact ⟨by simpa using hl, hclose2,
          loop_exits_of_answers m _ t _ (by simp [answers, hc, hans]) hclose2 (by simpa using hl)⟩
      · right
        exact ⟨by simpa using hl,
          loop_running_of_answers m _ t _ (by simp [answers, hc, hans]) (by simpa using hl)⟩

theorem main_of_loop (m : Mock) (fuel : Nat) (argc : Int) (argv : List String)
    (hret : ∀ status, m.initWindow 640 480 "My Window!!" ≠ .failedExit status) :
    main m fuel argc argv =
      match loop m fuel (prologue (m.initWindow 640 480 "My Window!!")) with
      | .stillLooping t => .running t
      | .exitedLoop t => .returned EXIT_SUCCESS (t ++ [Event.CloseWindow]) := by
  cases hi : m.initWindow 640 480 "My Window!!" with
  | failedExit status => exact absurd hi (hret status)
  | created => simp [main, hi, prologue]
  | failedReturn => simp [main, hi, prologue]

theorem main_returns_of_answers (m : Mock) (fuel : Nat) (argc : Int) (argv : List String)
    (hret : ∀ status, m.initWindow 640 480 "My Window!!" ≠ .failedExit status)
    (ks : List Bool)
    (h : answers m (prologue (m.initWindow 640 480 "My Window!!")) ks = true)
    (hclose : m.windowShouldClose
      (prologue (m.initWindow 640 480 "My Window!!") ++ iterations ks) = true)
    (hfuel : ks.length < fuel) :
    main m fuel argc argv = .returned EXIT_SUCCESS
      (prologue (m.initWindow 640 480 "My Window!!") ++ iterations ks ++
        [Event.WindowShouldClose true, Event.CloseWindow]) := by
  rw [main_of_loop m fuel argc argv hret, loop_exits_of_answers m ks _ fuel h hclose hfuel]
  simp

theorem main_running_of_answers (m : Mock) (fuel : Nat) (argc : Int) (argv : List String)
    (hret : ∀ status, m.initWindow 640 480 "My Window!!" ≠ .failedExit status)
    (ks : List Bool)
    (h : answers m (prologue (m.initWindow 640 480 "My Window!!")) ks = true)
    (hfuel : ks.length = fuel) :
    main m fuel argc argv = .running
      (prologue (m.initWindow 640 480 "My Window!!") ++ iterations ks) := by
  rw [main_of_loop m fuel argc argv hret, loop_running_of_answers m ks _ fuel h hfuel]

theorem main_contains_of_answers (m : Mock) (fuel : Nat) (argc : Int) (argv : List String)
    (hret : ∀ status, m.initWindow 640 480 "My Window!!" ≠ .failedExit status)
    (ks : List Bool)
    (h : answers m (prologue (m.initWindow 640 480 "My Window!!")) ks = true)
    (hfuel : ks.length ≤ fuel) :
    ∃ rest, (main m fuel argc argv).trace =
      prologue (m.initWindow 640 480 "My Window!!") ++ iterations ks ++ rest := by
  obtain ⟨f, rfl⟩ : ∃ f, fuel = ks.length + f := ⟨fuel - ks.length, by omega⟩
  rw [main_of_loop m _ argc argv hret, loop_answers m ks _ f h]
  obtain ⟨added, hadd⟩ := loop_extends m f
    (prologue (m.initWindow 640 480 "My Window!!") ++ iterations ks)
  cases hl : loop m f (prologue (m.initWindow 640 480 "My Window!!") ++ iterations ks) with
  | stillLooping u =>
    rw [hl] at hadd
    exact ⟨added, by simpa [Outcome.trace, LoopResult.trace] using hadd⟩
  | exitedLoop u =>
    rw [hl] at hadd
    simp only [LoopResult.trace] at hadd
    exact ⟨added ++ [Event.CloseWindow], by simp [Outcome.trace, hadd]⟩

/-! ## Splitting a trace at its last call -/

theorem snoc_split {α : Type} (t before after : List α) (e x : α)
    (h : t ++ [e] = before ++ x :: after) :
    (after = [] ∧ t = before ∧ e = x) ∨ (∃ mid, after = mid ++ [e] ∧ t = before ++ x :: mid) := by
  rcases List.eq_nil_or_concat after with rfl | ⟨mid, y, rfl⟩
  · left
    have := List.append_inj' h rfl
    simpa using this
  · right
    have h2 : t ++ [e] = (before ++ x :: mid) ++ [y] := by simpa using h
    have := List.append_inj' h2 rfl
    have he : e = y := by simpa using this.2
    exact ⟨mid, by rw [he, List.concat_eq_append], this.1⟩

/-! ## Invariant: each clear follows the query of the space key -/

theorem clearFollowsKey_nil (m : Mock) : ClearFollowsKey m [] := by
  intro before c after h
  simp at h

theorem clearFollowsKey_snoc (m : Mock) (t : List Event) (e : Event)
    (ht : ClearFollowsKey m t) (he : ∀ c, e ≠ Event.ClearBackground c) :
    ClearFollowsKey m (t ++ [e]) := by
  intro before c after h
  rcases snoc_split t before after e _ h with ⟨_, _, hx⟩ | ⟨mid, _, hm⟩
  · exact absurd hx (he c)
  · exact ht before c mid hm

theorem clearFollowsKey_clear (m : Mock) (hist : List Event)
    (ht : ClearFollowsKey m (hist ++ [Event.IsKeyDown KEY_SPACE (m.isKeyDown hist KEY_SPACE)])) :
    ClearFollowsKey m (hist ++ [Event.IsKeyDown KEY_SPACE (m.isKeyDown hist KEY_SPACE)] ++
      [Event.ClearBackground (if m.isKeyDown hist KEY_SPACE then PURPLE else SKYBLUE)]) := by
  intro before c after h
  rcases snoc_split _ before after _ _ h with ⟨_, hb, hx⟩ | ⟨mid, _, hm⟩
  · refine ⟨hist, hb.symm, ?_⟩
    simpa using hx.symm
  · exact ht before c mid hm

theorem clearFollowsKey_loop (m : Mock) (fuel : Nat) (t : List Event)
    (ht : ClearFollowsKey m t) : ClearFollowsKey m (loop m fuel t).trace := by
  induction fuel generalizing t with
  | zero => simpa [loop, LoopResult.trace] using ht
  | succ fuel ih =>
    by_cases hc : m.windowShouldClose t = true
    · simp only [loop, hc, if_true, LoopResult.trace]
      exact clearFollowsKey_snoc m t _ ht (by simp)
    · have hc : m.windowShouldClose t = false := by simpa using hc
      simp only [loop, hc]
      apply ih
      apply clearFollowsKey_snoc _ _ _ _ (by simp)
      apply clearFollowsKey_clear
      apply clearFollowsKey_snoc _ _ _ _ (by simp)
      apply clearFollowsKey_snoc _ _ _ _ (by simp)
      exact clearFollowsKey_snoc m t _ ht (by simp)

theorem clearFollowsKey_main (m : Mock) (fuel : Nat) (argc : Int) (argv : List String) :
    ClearFollowsKey m (main m fuel argc argv).trace := by
  have hp : ∀ r, ClearFollowsKey m (loop m fuel (prologue r)).trace := fun r =>
    clearFollowsKey_loop m fuel _
      (clearFollowsKey_snoc m _ _ (clearFollowsKey_snoc m _ _ (clearFollowsKey_nil m) (by simp))
        (by simp))
  cases hi : m.initWindow 640 480 "My Window!!" with
  | failedExit status =>
    simp only [main, hi, Outcome.trace]
    exact clearFollowsKey_snoc m _ _ (clearFollowsKey_nil m) (by simp)
  | created =>
    have := hp .created
    simp only [prologue, List.cons_append, List.nil_append] at this
    simp only [main, hi, List.cons_append, List.nil_append]
    cases hl : loop m fuel [Event.InitWindow 640 480 "My Window!!" InitResult.created,
      Event.SetWindowState FLAG_WINDOW_RESIZABLE] with
    | stillLooping t => rw [hl] at this; simpa [Outcome.trace, LoopResult.trace] using this
    | exitedLoop t =>
      rw [hl] at this
      exact clearFollowsKey_snoc m _ _ this (by simp)
  | failedReturn =>
    have := hp .failedReturn
    simp only [prologue, List.cons_append, List.nil_append] at this
    simp only [main, hi, List.cons_append, List.nil_append]
    cases hl : loop m fuel [Event.InitWindow 640 480 "My Window!!" InitResult.failedReturn,
      Event.SetWindowState FLAG_WINDOW_RESIZABLE] with
    | stillLooping t => rw [hl] at this; simpa [Outcome.trace, LoopResult.trace] using this
    | exitedLoop t =>
      rw [hl] at this
      exact clearFollowsKey_snoc m _ _ this (by simp)

/-! ## Counting calls, and mocks that follow a script -/

theorem closeChecks_append (a b : List Event) :
    closeChecks (a ++ b) = closeChecks a + closeChecks b := by
  induction a with
  | nil => simp [closeChecks]
  | cons e a ih => cases e <;> simp [closeChecks, ih]; omega

theorem framesDone_append (a b : List Event) :
    framesDone (a ++ b) = framesDone a + framesDone b := by
  induction a with
  | nil => simp [framesDone]
  | cons e a ih => cases e <;> simp [framesDone, ih]; omega

theorem begins_append (a b : List Event) : begins (a ++ b) = begins a + begins b := by
  induction a with
  | nil => simp [begins]
  | cons e a ih => cases e <;> simp [begins, ih]; omega

theorem keyQueries_append (a b : List Event) :
    keyQueries (a ++ b) = keyQueries a + keyQueries b := by
  induction a with
  | nil => simp [keyQueries]
  | cons e a ih => cases e <;> simp [keyQueries, ih]; omega

theorem framesDone_iterations (ks : List Bool) : framesDone (iterations ks) = ks.length := by
  induction ks with
  | nil => rfl
  | cons k ks ih => simp [iterations, iteration, framesDone, ih]

theorem begins_iterations (ks : List Bool) : begins (iterations ks) = ks.length := by
  induction ks with
  | nil => rfl
  | cons k ks ih => simp [iterations, iteration, begins, ih]

theorem keyQueries_iterations (ks : List Bool) : keyQueries (iterations ks) = ks.length := by
  induction ks with
  | nil => rfl
  | cons k ks ih => simp [iterations, iteration, keyQueries, ih]

theorem closeChecks_iterations (ks : List Bool) : closeChecks (iterations ks) = ks.length := by
  induction ks with
  | nil => rfl
  | cons k ks ih => simp [iterations, iteration, closeChecks, ih]

theorem loop_script (m : Mock) (all : List Bool)
    (hfalse : ∀ h, closeChecks h < all.length → m.windowShouldClose h = false)
    (htrue : ∀ h, closeChecks h = all.length → m.windowShouldClose h = true)
    (hkeys : ∀ h k, all[framesDone h]? = some k → m.isKeyDown h KEY_SPACE = k)
    (ks : List Bool) :
    ∀ (past : List Bool) (t : List Event) (fuel : Nat), all = past ++ ks →
      closeChecks t = past.length → framesDone t = past.length → ks.length < fuel →
      loop m fuel t = .exitedLoop (t ++ iterations ks ++ [Event.WindowShouldClose true]) := by
  induction ks with
  | nil =>
    intro past t fuel hall hc _ hfuel
    obtain ⟨fuel, rfl⟩ : ∃ f, fuel = f + 1 := ⟨fuel - 1, by simp at hfuel; omega⟩
    have hclose : m.windowShouldClose t = true := htrue t (by simp [hall, hc])
    simp [loop, hclose, iterations]
  | cons k ks ih =>
    intro past t fuel hall hc hf hfuel
    obtain ⟨fuel, rfl⟩ : ∃ f, fuel = f + 1 := ⟨fuel - 1, by simp at hfuel; omega⟩
    have hclose : m.windowShouldClose t = false := hfalse t (by simp [hall, hc])
    have hdown : m.isKeyDown (t ++ [Event.WindowShouldClose false] ++ [Event.BeginDrawing])
        KEY_SPACE = k := by
      apply hkeys
      have hk : (past ++ k :: ks)[past.length]? = some k := by
        rw [List.getElem?_append_right (le_refl _)]
        simp
      simpa [framesDone_append, framesDone, hf, hall] using hk
    have hstep := ih (past ++ [k])
      (t ++ [Event.WindowShouldClose false] ++ [Event.BeginDrawing] ++
        [Event.IsKeyDown KEY_SPACE k] ++
        [Event.ClearBackground (if k then PURPLE else SKYBLUE)] ++ [Event.EndDrawing]) fuel
      (by simp [hall])
      (by simp [closeChecks_append, closeChecks, hc])
      (by simp [framesDone_append, framesDone, hf])
      (by simp at hfuel; omega)
    simp only [loop, hclose, hdown]
    simpa [iterations, iteration] using hstep

/-! ## Calls that no iteration makes -/

theorem closeTrue_not_mem_iterations (ks : List Bool) :
    Event.WindowShouldClose true ∉ iterations ks := by
  induction ks with
  | nil => simp [iterations]
  | cons k ks ih => simp [iterations, iteration, ih]

/-! ## Runs that return -/

theorem mem_iterations (ks : List Bool) (e : Event) (h : e ∈ iterations ks) :
    ∃ k, e ∈ iteration k := by
  induction ks with
  | nil => simp [iterations] at h
  | cons k ks ih =>
    simp only [iterations, List.mem_append] at h
    rcases h with h | h
    · exact ⟨k, h⟩
    · exact ih h

theorem returned_shape (m : Mock) (fuel : Nat) (argc : Int) (argv : List String)
    (status : Int) (t : List Event) (h : main m fuel argc argv = .returned status t) :
    status = EXIT_SUCCESS ∧ ∃ ks : List Bool, ks.length < fuel ∧
      t = prologue (m.initWindow 640 480 "My Window!!") ++ iterations ks ++
        [Event.WindowShouldClose true, Event.CloseWindow] := by
  rcases main_shape m fuel argc argv with ⟨s, _, hm⟩ | ⟨ks, _, ⟨hl, hm⟩ | ⟨_, hm⟩⟩
  · rw [hm] at h; cases h
  · rw [hm] at h
    cases h
    exact ⟨rfl, ks, hl, rfl⟩
  · rw [hm] at h; cases h

theorem closeWindow_not_mem_iterations (ks : List Bool) :
    Event.CloseWindow ∉ iterations ks := by
  induction ks with
  | nil => simp [iterations]
  | cons k ks ih => simp [iterations, iteration, ih]

/-! ## Properties of every position of a run -/

theorem iteration_split (k : Bool) (b : List Event) (e : Event) (a : List Event)
    (h : iteration k = b ++ e :: a) :
    (b = [] ∧ e = Event.WindowShouldClose false ∧
      a = [Event.BeginDrawing, Event.IsKeyDown KEY_SPACE k,
        Event.ClearBackground (if k then PURPLE else SKYBLUE), Event.EndDrawing]) ∨
    (b = [Event.WindowShouldClose false] ∧ e = Event.BeginDrawing ∧
      a = [Event.IsKeyDown KEY_SPACE k,
        Event.ClearBackground (if k then PURPLE else SKYBLUE), Event.EndDrawing]) ∨
    (b = [Event.WindowShouldClose false, Event.BeginDrawing] ∧
      e = Event.IsKeyDown KEY_SPACE k ∧
      a = [Event.ClearBackground (if k then PURPLE else SKYBLUE), Event.EndDrawing]) ∨
    (b = [Event.WindowShouldClose false, Event.BeginDrawing, Event.IsKeyDown KEY_SPACE k] ∧
      e = Event.ClearBackground (if k then PURPLE else SKYBLUE) ∧ a = [Event.EndDrawing]) ∨
    (b = [Event.WindowShouldClose false, Event.BeginDrawing, Event.IsKeyDown KEY_SPACE k,
        Event.ClearBackground (if k then PURPLE else SKYBLUE)] ∧
      e = Event.EndDrawing ∧ a = []) := by
  unfold iteration at h
  rcases b with _ | ⟨b0, _ | ⟨b1, _ | ⟨b2, _ | ⟨b3, _ | ⟨b4, b⟩⟩⟩⟩⟩
  · simp only [List.nil_append, List.cons.injEq] at h
    obtain ⟨h0, h1⟩ := h
    subst h0 h1
    simp
  · simp only [List.cons_append, List.nil_append, List.cons.injEq] at h
    obtain ⟨h0, h1, h2⟩ := h
    subst h0 h1 h2
    simp
  · simp only [List.cons_append, List.nil_append, List.cons.injEq] at h
    obtain ⟨h0, h1, h2, h3⟩ := h
    subst h0 h1 h2 h3
    simp
  · simp only [List.cons_append, List.nil_append, List.cons.injEq] at h
    obtain ⟨h0, h1, h2, h3, h4⟩ := h
    subst h0 h1 h2 h3 h4
    simp
  · simp only [List.cons_append, List.nil_append, List.cons.injEq] at h
    obtain ⟨h0, h1, h2, h3, h4, h5⟩ := h
    subst h0 h1 h2 h3 h4 h5
    simp
  · simp at h

theorem everywhere_append (R : List Event → Event → List Event → Prop)
    (hmono : ∀ x b e a, R b e a → R (x :: b) e a) (chunk l : List Event)
    (hin : ∀ b e a, chunk = b ++ e :: a → R b e (a ++ l)) (hl : Everywhere R l) :
    Everywhere R (chunk ++ l) := by
  have hpre : ∀ (c b : List Event) e a, R b e a → R (c ++ b) e a := by
    intro c
    induction c with
    | nil => intro b e a h; simpa using h
    | cons x c ih => intro b e a h; exact hmono x _ e a (ih b e a h)
  intro before e after h
  rcases List.append_eq_append_iff.mp h with ⟨mid, hb, h2⟩ | ⟨mid, hc, h2⟩
  · rw [hb]
    exact hpre chunk mid e after (hl mid e after h2)
  · cases mid with
    | nil =>
      simp only [List.nil_append] at h2
      simp only [List.append_nil] at hc
      have := hpre chunk [] e after (hl [] e after (by simpa using h2.symm))
      rw [← hc]
      simpa using this
    | cons x mid =>
      simp only [List.cons_append, List.cons.injEq] at h2
      rw [h2.2]
      exact hin before e mid (by rw [hc, h2.1])

theorem everywhere_other (R : List Event → Event → List Event → Prop)
    (hother : ∀ b e a, isLifecycleCall e = true → R b e a)
    (l : List Event) (hl : ∀ e ∈ l, isLifecycleCall e = true) :
    Everywhere R l := by
  intro before e after h
  have hmem : e ∈ l := by rw [h]; simp
  exact hother before e after (hl e hmem)

theorem everywhere_main (R : List Event → Event → List Event → Prop)
    (hmono : ∀ x b e a, R b e a → R (x :: b) e a)
    (hframe : ∀ k l b e a, iteration k = b ++ e :: a → R b e (a ++ l))
    (hother : ∀ b e a, isLifecycleCall e = true → R b e a)
    (m : Mock) (fuel : Nat) (argc : Int) (argv : List String) :
    Everywhere R (main m fuel argc argv).trace := by
  have hiter : ∀ (ks : List Bool) (l : List Event), Everywhere R l →
      Everywhere R (iterations ks ++ l) := by
    intro ks l hl
    induction ks with
    | nil => simpa [iterations] using hl
    | cons k ks ih =>
      simp only [iterations, List.append_assoc]
      exact everywhere_append R hmono _ _ (hframe k _) ih
  have hpro : ∀ (r : InitResult) (l : List Event), Everywhere R l →
      Everywhere R (prologue r ++ l) := by
    intro r l hl
    apply everywhere_append R hmono _ _ _ hl
    intro b e a h
    have hmem : e ∈ prologue r := by rw [h]; simp
    simp only [prologue, List.mem_cons, List.mem_singleton, List.not_mem_nil, or_false] at hmem
    rcases hmem with rfl | rfl
    · exact hother _ _ _ rfl
    · exact hother _ _ _ rfl
  rcases main_shape m fuel argc argv with ⟨s, _, hm⟩ | ⟨ks, _, ⟨_, hm⟩ | ⟨_, hm⟩⟩
  · rw [hm]
    apply everywhere_other R hother
    intro e he
    simp only [Outcome.trace, List.mem_singleton] at he
    subst he
    rfl
  · rw [hm]
    simp only [Outcome.trace, List.append_assoc]
    apply hpro
    apply hiter
    apply everywhere_other R hother
    intro e he
    simp only [List.mem_cons, List.mem_singleton, List.not_mem_nil, or_false] at he
    rcases he with rfl | rfl
    · rfl
    · rfl
  · rw [hm]
    simp only [Outcome.trace]
    apply hpro
    have := hiter ks [] (by intro before e after h; simp at h)
    simpa using this

/-! ## Invariant: begin and end of frames alternate -/

theorem main_trace_cases (m : Mock) (fuel : Nat) (argc : Int) (argv : List String) :
    (∃ s, (main m fuel argc argv).trace =
      [] ++ [Event.InitWindow 640 480 "My Window!!" (.failedExit s)]) ∨
    (∃ r, (main m fuel argc argv).trace = (loop m fuel (prologue r)).trace) ∨
    (∃ r, (main m fuel argc argv).trace =
      (loop m fuel (prologue r)).trace ++ [Event.CloseWindow]) := by
  cases hi : m.initWindow 640 480 "My Window!!" with
  | failedExit status => exact Or.inl ⟨status, by simp [main, hi, Outcome.trace]⟩
  | created =>
    right
    cases hl : loop m fuel (prologue .created) with
    | stillLooping t =>
      left
      refine ⟨.created, ?_⟩
      simp only [prologue] at hl
      simp [main, hi, hl, Outcome.trace, LoopResult.trace, prologue]
    | exitedLoop t =>
      right
      refine ⟨.created, ?_⟩
      simp only [prologue] at hl
      simp [main, hi, hl, Outcome.trace, LoopResult.trace, prologue]
  | failedReturn =>
    right
    cases hl : loop m fuel (prologue .failedReturn) with
    | stillLooping t =>
      left
      refine ⟨.failedReturn, ?_⟩
      simp only [prologue] at hl
      simp [main, hi, hl, Outcome.trace, LoopResult.trace, prologue]
    | exitedLoop t =>
      right
      refine ⟨.failedReturn, ?_⟩
      simp only [prologue] at hl
      simp [main, hi, hl, Outcome.trace, LoopResult.trace, prologue]

theorem balanced_nil : Balanced [] := by
  intro p rest h
  have hp : p = [] := by
    cases p with
    | nil => rfl
    | cons x p => simp at h
  subst hp
  simp [framesDone, begins]

theorem balanced_snoc (t : List Event) (e : Event) (ht : Balanced t)
    (hc : framesDone (t ++ [e]) ≤ begins (t ++ [e]) ∧
      begins (t ++ [e]) ≤ framesDone (t ++ [e]) + 1) :
    Balanced (t ++ [e]) := by
  intro p rest h
  rcases List.eq_nil_or_concat rest with rfl | ⟨r, x, rfl⟩
  · have hp : p = t ++ [e] := by simpa using h.symm
    rw [hp]
    exact hc
  · have h2 : t ++ [e] = (p ++ r) ++ [x] := by simpa [List.concat_eq_append] using h
    exact ht p r (List.append_inj' h2 rfl).1

theorem balanced_loop (m : Mock) (fuel : Nat) (t : List Event)
    (ht : Balanced t) (hc : begins t = framesDone t) :
    Balanced (loop m fuel t).trace ∧
      begins (loop m fuel t).trace = framesDone (loop m fuel t).trace := by
  induction fuel generalizing t with
  | zero => simpa [loop, LoopResult.trace] using And.intro ht hc
  | succ fuel ih =>
    by_cases hclose : m.windowShouldClose t = true
    · simp only [loop, hclose, if_true, LoopResult.trace]
      refine ⟨balanced_snoc t _ ht ?_, ?_⟩ <;>
        simp [begins_append, framesDone_append, begins, framesDone, hc]
    · have hclose : m.windowShouldClose t = false := by simpa using hclose
      simp only [loop, hclose]
      apply ih
      · apply balanced_snoc
        · apply balanced_snoc
          · apply balanced_snoc
            · apply balanced_snoc
              · apply balanced_snoc _ _ ht
                simp [begins_append, framesDone_append, begins, framesDone, hc]
              · simp [begins_append, framesDone_append, begins, framesDone, hc]
            · simp [begins_append, framesDone_append, begins, framesDone, hc]
          · simp [begins_append, framesDone_append, begins, framesDone, hc]
        · simp [begins_append, framesDone_append, begins, framesDone, hc]
      · simp [begins_append, framesDone_append, begins, framesDone, hc]

theorem balanced_main (m : Mock) (fuel : Nat) (argc : Int) (argv : List String) :
    Balanced (main m fuel argc argv).trace ∧
      begins (main m fuel argc argv).trace = framesDone (main m fuel argc argv).trace := by
  have hp : ∀ r, Balanced (prologue r) ∧ begins (prologue r) = framesDone (prologue r) := by
    intro r
    refine ⟨?_, rfl⟩
    have h1 := balanced_snoc [] (Event.InitWindow 640 480 "My Window!!" r) balanced_nil
      (by simp [begins, framesDone])
    exact balanced_snoc _ (Event.SetWindowState FLAG_WINDOW_RESIZABLE) h1
      (by simp [begins, framesDone])
  rcases main_trace_cases m fuel argc argv with ⟨s, h⟩ | ⟨r, h⟩ | ⟨r, h⟩
  · rw [h]
    exact ⟨balanced_snoc _ _ balanced_nil (by simp [begins, framesDone]),
      by simp [begins, framesDone]⟩
  · rw [h]
    exact balanced_loop m fuel _ (hp r).1 (hp r).2
  · rw [h]
    have hl := balanced_loop m fuel _ (hp r).1 (hp r).2
    refine ⟨balanced_snoc _ _ hl.1 ?_, ?_⟩ <;>
      simp [begins_append, framesDone_append, begins, framesDone, hl.2]

theorem queries_eq_begins (m : Mock) (fuel : Nat) (argc : Int) (argv : List String) :
    keyQueries (main m fuel argc argv).trace = begins (main m fuel argc argv).trace := by
  rcases main_shape m fuel argc argv with ⟨s, _, hm⟩ | ⟨ks, _, ⟨_, hm⟩ | ⟨_, hm⟩⟩
  · rw [hm]; rfl
  · rw [hm]
    simp [Outcome.trace, prologue, keyQueries_append, begins_append, keyQueries_iterations,
      begins_iterations, keyQueries, begins]
  · rw [hm]
    simp [Outcome.trace, prologue, keyQueries_append, begins_append, keyQueries_iterations,
      begins_iterations, keyQueries, begins]

/-! ## C1: the clear colour follows the space key -/

/-- C1: in every run of `main`, whatever the mock answers.  Every frame selects
exactly one colour: each `BeginDrawing` is followed by the query of the space
key, whose recorded answer is the state of the key the mock reports at that
time, then by one `ClearBackground` whose colour is `PURPLE` when that answer
is "down" and `SKYBLUE` when it is not, then by `EndDrawing`; and each loop
iteration (a close-request check answered false) opens such a frame.
Conversely each `ClearBackground(c)` comes right after the query of its frame,
and `c` is `PURPLE` exactly when the key is down and `SKYBLUE` exactly when it
is not, never both.  The two colours are distinct.  And the frames are really
rendered: for every list of key states the mock answers along the loop (within
the bound), the run contains one iteration per key state, in order, each
cleared to the colour of its key state. -/
theorem clear_colour_follows_space_key (m : Mock) (fuel : Nat) (argc : Int)
    (argv : List String) :
    PURPLE ≠ SKYBLUE ∧
    (∀ before c after,
      (main m fuel argc argv).trace = before ++ Event.ClearBackground c :: after →
      ∃ hist down, before = hist ++ [Event.IsKeyDown KEY_SPACE down] ∧
        down = m.isKeyDown hist KEY_SPACE ∧
        (c = PURPLE ↔ down = true) ∧ (c = SKYBLUE ↔ down = false) ∧
        (c = PURPLE ∨ c = SKYBLUE) ∧ ¬ (c = PURPLE ∧ c = SKYBLUE)) ∧
    (∀ before after,
      (main m fuel argc argv).trace = before ++ Event.BeginDrawing :: after →
      ∃ rest, after =
        Event.IsKeyDown KEY_SPACE (m.isKeyDown (before ++ [Event.BeginDrawing]) KEY_SPACE) ::
        Event.ClearBackground
          (if m.isKeyDown (before ++ [Event.BeginDrawing]) KEY_SPACE then PURPLE else SKYBLUE) ::
        Event.EndDrawing :: rest) ∧
    (∀ before after,
      (main m fuel argc argv).trace = before ++ Event.WindowShouldClose false :: after →
      ∃ rest, after = Event.BeginDrawing :: rest) ∧
    (∀ ks : List Bool, (∀ status, m.initWindow 640 480 "My Window!!" ≠ .failedExit status) →
      answers m (prologue (m.initWindow 640 480 "My Window!!")) ks = true →
      ks.length ≤ fuel →
      ∃ rest, (main m fuel argc argv).trace =
        prologue (m.initWindow 640 480 "My Window!!") ++ iterations ks ++ rest) := by
  have hne : PURPLE ≠ SKYBLUE := by decide
  have hclear := clearFollowsKey_main m fuel argc argv
  have hpos := everywhere_main
    (fun _ e a =>
      (e = Event.BeginDrawing → ∃ down rest, a = Event.IsKeyDown KEY_SPACE down ::
        Event.ClearBackground (if down then PURPLE else SKYBLUE) :: Event.EndDrawing :: rest) ∧
      (e = Event.WindowShouldClose false → ∃ rest, a = Event.BeginDrawing :: rest))
    (by intro x b e a h; exact h)
    (by
      intro k l b e a h
      rcases iteration_split k b e a h with ⟨rfl, rfl, rfl⟩ | ⟨rfl, rfl, rfl⟩ |
        ⟨rfl, rfl, rfl⟩ | ⟨rfl, rfl, rfl⟩ | ⟨rfl, rfl, rfl⟩
      · simp
      · refine ⟨?_, by simp⟩
        intro _
        exact ⟨k, l, by simp⟩
      · simp
      · simp
      · simp)
    (by
      intro b e a he
      refine ⟨?_, ?_⟩
      · intro h; subst h; simp [isLifecycleCall] at he
      · intro h; subst h; simp [isLifecycleCall] at he)
    m fuel argc argv
  refine ⟨hne, ?_, ?_, ?_, ?_⟩
  · intro before c after h
    obtain ⟨hist, hb, hc⟩ := hclear before c after h
    refine ⟨hist, m.isKeyDown hist KEY_SPACE, hb, rfl, ?_⟩
    cases hd : m.isKeyDown hist KEY_SPACE
    · have hc2 : c = SKYBLUE := by simpa [hd] using hc
      subst hc2
      exact ⟨by simp [hne.symm], by simp, Or.inr rfl, fun h => hne h.1.symm⟩
    · have hc2 : c = PURPLE := by simpa [hd] using hc
      subst hc2
      exact ⟨by simp, by simp [hne], Or.inl rfl, fun h => hne h.2⟩
  · intro before after h
    obtain ⟨down, rest, ha⟩ := (hpos before _ after h).1 rfl
    have h2 : (main m fuel argc argv).trace =
        (before ++ [Event.BeginDrawing] ++ [Event.IsKeyDown KEY_SPACE down]) ++
          Event.ClearBackground (if down then PURPLE else SKYBLUE) ::
            (Event.EndDrawing :: rest) := by
      rw [h, ha]; simp
    obtain ⟨hist, hb, _⟩ := hclear _ _ _ h2
    have hinj := List.append_inj' hb rfl
    have hd : down = m.isKeyDown hist KEY_SPACE := by simpa using hinj.2
    rw [← hinj.1] at hd
    exact ⟨rest, by rw [ha, ← hd]⟩
  · intro before after h
    exact (hpos before _ after h).2 rfl
  · intro ks hret hans hfuel
    exact main_contains_of_answers m fuel argc argv hret ks hans hfuel

/-- Witness for C1: the space key is down in the first frame and up in the
second.  The first clear is purple and follows the query answered "down"; the
second frame, opened by its `BeginDrawing`, queries the key, is answered "up"
and clears to sky blue; both frames the mock's answers call for are in the
run. -/
theorem clear_colour_follows_space_key_witness :
    (main (scripted .created (fun i => decide (2 ≤ i)) (fun i _ => decide (i = 0))) 3 0 []).trace =
      [Event.InitWindow 640 480 "My Window!!" .created, Event.SetWindowState 4,
        Event.WindowShouldClose false, Event.BeginDrawing, Event.IsKeyDown 32 true] ++
      Event.ClearBackground PURPLE ::
      [Event.EndDrawing, Event.WindowShouldClose false, Event.BeginDrawing,
        Event.IsKeyDown 32 false, Event.ClearBackground SKYBLUE, Event.EndDrawing,
        Event.WindowShouldClose true, Event.CloseWindow] ∧
    (∃ hist down,
      [Event.InitWindow 640 480 "My Window!!" .created, Event.SetWindowState 4,
        Event.WindowShouldClose false, Event.BeginDrawing, Event.IsKeyDown 32 true] =
        hist ++ [Event.IsKeyDown KEY_SPACE down] ∧
      down = (scripted .created (fun i => decide (2 ≤ i)) (fun i _ => decide (i = 0))).isKeyDown
        hist KEY_SPACE ∧
      (PURPLE = PURPLE ↔ down = true) ∧ (PURPLE = SKYBLUE ↔ down = false) ∧
      (PURPLE = PURPLE ∨ PURPLE = SKYBLUE) ∧ ¬ (PURPLE = PURPLE ∧ PURPLE = SKYBLUE)) ∧
    (∃ rest,
      [Event.IsKeyDown 32 false, Event.ClearBackground SKYBLUE, Event.EndDrawing,
        Event.WindowShouldClose true, Event.CloseWindow] =
      Event.IsKeyDown KEY_SPACE false :: Event.ClearBackground SKYBLUE ::
        Event.EndDrawing :: rest) ∧
    (∃ rest,
      (main (scripted .created (fun i => decide (2 ≤ i)) (fun i _ => decide (i = 0))) 3 0 []).trace =
        [Event.InitWindow 640 480 "My Window!!" .created, Event.SetWindowState 4] ++
          iterations [true, false] ++ rest) :=
  ⟨rfl,
    (clear_colour_follows_space_key
      (scripted .created (fun i => decide (2 ≤ i)) (fun i _ => decide (i = 0))) 3 0 []).2.1
      [Event.InitWindow 640 480 "My Window!!" .created, Event.SetWindowState 4,
        Event.WindowShouldClose false, Event.BeginDrawing, Event.IsKeyDown 32 true]
      PURPLE
      [Event.EndDrawing, Event.WindowShouldClose false, Event.BeginDrawing,
        Event.IsKeyDown 32 false, Event.ClearBackground SKYBLUE, Event.EndDrawing,
        Event.WindowShouldClose true, Event.CloseWindow] rfl,
    (clear_colour_follows_space_key
      (scripted .created (fun i => decide (2 ≤ i)) (fun i _ => decide (i = 0))) 3 0 []).2.2.1
      [Event.InitWindow 640 480 "My Window!!" .created, Event.SetWindowState 4,
        Event.WindowShouldClose false, Event.BeginDrawing, Event.IsKeyDown 32 true,
        Event.ClearBackground PURPLE, Event.EndDrawing, Event.WindowShouldClose false]
      [Event.IsKeyDown 32 false, Event.ClearBackground SKYBLUE, Event.EndDrawing,
        Event.WindowShouldClose true, Event.CloseWindow] rfl,
    (clear_colour_follows_space_key
      (scripted .created (fun i => decide (2 ≤ i)) (fun i _ => decide (i = 0))) 3 0 []).2.2.2.2
      [true, false] (fun _ h => by cases h) rfl (by decide)⟩

/-! ## C2: scripted runs -/

/-- C2: for every script of key states `ks` (of any length `n`, zero included),
if the mock creates the window, answers the close-request checks that follow
fewer than `n` earlier checks with false and the check that follows `n`
earlier checks with true, and reports the `i`-th key state of the script for
the space key during frame `i`, then `main` (given more than `n` checks)
returns `EXIT_SUCCESS` after exactly these calls: `InitWindow`,
`SetWindowState`, then for each key state in order one iteration (check
answered false, `BeginDrawing`, the key query, `ClearBackground` with purple
when pressed and sky blue otherwise, `EndDrawing`), then the check answered
true and `CloseWindow`.  The run has exactly `n` finished frames. -/
theorem scripted_run (m : Mock) (ks : List Bool) (fuel : Nat) (argc : Int) (argv : List String)
    (hinit : m.initWindow 640 480 "My Window!!" = .created)
    (hfalse : ∀ h, closeChecks h < ks.length → m.windowShouldClose h = false)
    (htrue : ∀ h, closeChecks h = ks.length → m.windowShouldClose h = true)
    (hkeys : ∀ h k, ks[framesDone h]? = some k → m.isKeyDown h KEY_SPACE = k)
    (hfuel : ks.length < fuel) :
    main m fuel argc argv = .returned EXIT_SUCCESS
      ([Event.InitWindow 640 480 "My Window!!" .created,
        Event.SetWindowState FLAG_WINDOW_RESIZABLE] ++ iterations ks ++
        [Event.WindowShouldClose true, Event.CloseWindow]) ∧
    framesDone (main m fuel argc argv).trace = ks.length ∧
    begins (main m fuel argc argv).trace = ks.length := by
  have hl := loop_script m ks hfalse htrue hkeys ks [] (prologue .created) fuel rfl
    (by simp [prologue, closeChecks]) (by simp [prologue, framesDone]) hfuel
  simp only [prologue, List.cons_append, List.nil_append] at hl
  have hm : main m fuel argc argv = .returned EXIT_SUCCESS
      ([Event.InitWindow 640 480 "My Window!!" .created,
        Event.SetWindowState FLAG_WINDOW_RESIZABLE] ++ iterations ks ++
        [Event.WindowShouldClose true, Event.CloseWindow]) := by
    simp [main, hinit, hl]
  refine ⟨hm, ?_, ?_⟩
  · rw [hm]
    simp [Outcome.trace, framesDone_append, framesDone_iterations, framesDone]
  · rw [hm]
    simp [Outcome.trace, begins_append, begins_iterations, begins]

/-- Witness for C2: the mock creates the window, reports the space key down in
the first frame and up in the second, and signals the close request at the
third check. -/
theorem scripted_run_witness :
    main (scripted .created (fun i => decide (2 ≤ i)) (fun i _ => decide (i = 0))) 3 0 [] =
      .returned 0
        [Event.InitWindow 640 480 "My Window!!" .created, Event.SetWindowState 4,
          Event.WindowShouldClose false, Event.BeginDrawing, Event.IsKeyDown 32 true,
          Event.ClearBackground PURPLE, Event.EndDrawing,
          Event.WindowShouldClose false, Event.BeginDrawing, Event.IsKeyDown 32 false,
          Event.ClearBackground SKYBLUE, Event.EndDrawing,
          Event.WindowShouldClose true, Event.CloseWindow] ∧
    framesDone
      (main (scripted .created (fun i => decide (2 ≤ i)) (fun i _ => decide (i = 0))) 3 0 []).trace
      = 2 :=
  have h := scripted_run
    (scripted .created (fun i => decide (2 ≤ i)) (fun i _ => decide (i = 0)))
    [true, false] 3 0 [] rfl
    (by intro h hh; simp only [scripted, List.length_cons, List.length_nil] at *
        simp; omega)
    (by intro h hh; simp only [scripted, List.length_cons, List.length_nil] at *
        simp; omega)
    (by intro h k hk
        simp only [scripted]
        rcases hn : framesDone h with _ | _ | n <;> rw [hn] at hk <;> simp at hk <;> simp [hk.symm])
    (by decide)
  ⟨h.1, h.2.1⟩

/-- Scenario 1 of the specification: key pressed for one frame, then the close
request; one frame is rendered, cleared to purple, and `main` returns 0. -/
theorem scenario_one_frame_key_down :
    main (scripted .created (fun i => decide (1 ≤ i)) (fun _ _ => true)) 2 0 [] =
      .returned 0
        [Event.InitWindow 640 480 "My Window!!" .created, Event.SetWindowState 4,
          Event.WindowShouldClose false, Event.BeginDrawing, Event.IsKeyDown 32 true,
          Event.ClearBackground ⟨200, 122, 255, 255⟩, Event.EndDrawing,
          Event.WindowShouldClose true, Event.CloseWindow] := rfl

/-- Scenario 2 of the specification: key released for three frames, then the
close request; three frames are rendered, each cleared to sky blue. -/
theorem scenario_three_frames_key_up :
    main (scripted .created (fun i => decide (3 ≤ i)) (fun _ _ => false)) 4 0 [] =
      .returned 0
        [Event.InitWindow 640 480 "My Window!!" .created, Event.SetWindowState 4,
          Event.WindowShouldClose false, Event.BeginDrawing, Event.IsKeyDown 32 false,
          Event.ClearBackground ⟨102, 191, 255, 255⟩, Event.EndDrawing,
          Event.WindowShouldClose false, Event.BeginDrawing, Event.IsKeyDown 32 false,
          Event.ClearBackground ⟨102, 191, 255, 255⟩, Event.EndDrawing,
          Event.WindowShouldClose false, Event.BeginDrawing, Event.IsKeyDown 32 false,
          Event.ClearBackground ⟨102, 191, 255, 255⟩, Event.EndDrawing,
          Event.WindowShouldClose true, Event.CloseWindow] := rfl

/-- Scenario 3 of the specification: close request at the very first check; no
frame is rendered, the window is initialised and then released. -/
theorem scenario_close_at_first_check :
    main (scripted .created (fun _ => true) (fun _ _ => false)) 1 0 [] =
      .returned 0
        [Event.InitWindow 640 480 "My Window!!" .created, Event.SetWindowState 4,
          Event.WindowShouldClose true, Event.CloseWindow] := rfl

/-! ## C3: the loop ends exactly at a close request -/

/-- C3: a run of the frame loop bounded by `fuel` close-request checks, from
any trace `t`, stands in one of two ways.  Either the loop has exited: it made
some number of whole iterations, fewer than `fuel`, each opened by its one
close-request check, which the library answered false, and then one more check,
which the library answered true: the first such answer, and the last call of
the loop.  Or the loop is still running: it made `fuel` checks, all answered
false by the library, and rendered `fuel` frames.  So the loop has exited if
and only if a check has returned true.  Whenever the library answers false
along some iterations and then true (within the bound), the loop exits right
there; as long as it answers false the loop goes on; and against a library
that never answers true the loop is still running at every bound, with as many
frames rendered as the bound. -/
theorem loop_exits_iff_close_request (m : Mock) (fuel : Nat) (t : List Event) :
    (∃ ks : List Bool,
      answers m t ks = true ∧
      Event.WindowShouldClose true ∉ iterations ks ∧
      closeChecks (iterations ks) = ks.length ∧ framesDone (iterations ks) = ks.length ∧
      ((ks.length < fuel ∧ m.windowShouldClose (t ++ iterations ks) = true ∧
          loop m fuel t = .exitedLoop (t ++ iterations ks ++ [Event.WindowShouldClose true])) ∨
        (ks.length = fuel ∧ loop m fuel t = .stillLooping (t ++ iterations ks)))) ∧
    ((∃ out, loop m fuel t = .exitedLoop out) ↔
      ∃ added, (loop m fuel t).trace = t ++ added ∧ Event.WindowShouldClose true ∈ added) ∧
    (∀ ks : List Bool, answers m t ks = true →
      m.windowShouldClose (t ++ iterations ks) = true → ks.length < fuel →
      loop m fuel t = .exitedLoop (t ++ iterations ks ++ [Event.WindowShouldClose true])) ∧
    (∀ ks : List Bool, answers m t ks = true → ks.length = fuel →
      loop m fuel t = .stillLooping (t ++ iterations ks)) ∧
    ((∀ h, m.windowShouldClose h = false) →
      ∃ ks : List Bool, framesDone (iterations ks) = fuel ∧
        loop m fuel t = .stillLooping (t ++ iterations ks)) := by
  obtain ⟨ks, hans, hks⟩ := loop_shape_answers m fuel t
  refine ⟨⟨ks, hans, closeTrue_not_mem_iterations ks, closeChecks_iterations ks,
    framesDone_iterations ks, hks⟩, ?_,
    fun ks2 h2 hc2 hf2 => loop_exits_of_answers m ks2 t fuel h2 hc2 hf2,
    fun ks2 h2 hf2 => loop_running_of_answers m ks2 t fuel h2 hf2, ?_⟩
  · rcases hks with ⟨_, _, h⟩ | ⟨_, h⟩
    · rw [h]
      constructor
      · intro _
        exact ⟨iterations ks ++ [Event.WindowShouldClose true], by simp [LoopResult.trace], by simp⟩
      · intro _
        exact ⟨_, rfl⟩
    · rw [h]
      constructor
      · rintro ⟨out, ho⟩
        cases ho
      · rintro ⟨added, ha, hmem⟩
        simp only [LoopResult.trace, List.append_cancel_left_eq] at ha
        rw [← ha] at hmem
        exact absurd hmem (closeTrue_not_mem_iterations ks)
  · intro hnever
    rcases hks with ⟨_, hclose, _⟩ | ⟨hl, h⟩
    · rw [hnever] at hclose
      cases hclose
    · exact ⟨ks, by rw [framesDone_iterations, hl], h⟩

/-- Witness for C3: a library that answers the first two checks with false and
the third with true makes the loop exit at the third check, after two frames;
a library that never signals the close request leaves the loop running, with
three frames rendered after three checks. -/
theorem loop_exits_iff_close_request_witness :
    loop (scripted .created (fun i => decide (2 ≤ i)) (fun i _ => decide (i = 0))) 3 [] =
      .exitedLoop ([] ++ iterations [true, false] ++ [Event.WindowShouldClose true]) ∧
    (∀ h, (scripted .created (fun _ => false) (fun _ _ => false)).windowShouldClose h = false) ∧
    ∃ ks : List Bool, framesDone (iterations ks) = 3 ∧
      loop (scripted .created (fun _ => false) (fun _ _ => false)) 3 [] =
        .stillLooping ([] ++ iterations ks) :=
  ⟨(loop_exits_iff_close_request
      (scripted .created (fun i => decide (2 ≤ i)) (fun i _ => decide (i = 0))) 3 []).2.2.1
      [true, false] rfl rfl (by decide),
    fun _ => rfl,
    (loop_exits_iff_close_request
      (scripted .created (fun _ => false) (fun _ _ => false)) 3 []).2.2.2.2 (fun _ => rfl)⟩

/-! ## C4: order of window creation, frames and window release -/

/-- C5, counterexample: the mocked `InitWindow` fails to create the window and
returns (it has no return value to report through).  With the close request
signalled at the first check, `main` releases the window and returns
`EXIT_SUCCESS`, which is 0: no failure indication.  With the close request
signalled only at the second check, `main` also renders a frame. -/
theorem init_failure_not_reported :
    (scripted .failedReturn (fun _ => true) (fun _ _ => false)).initWindow 640 480 "My Window!!"
      = .failedReturn ∧
    main (scripted .failedReturn (fun _ => true) (fun _ _ => false)) 1 0 [] =
      .returned 0
        [Event.InitWindow 640 480 "My Window!!" .failedReturn, Event.SetWindowState 4,
          Event.WindowShouldClose true, Event.CloseWindow] ∧
    main (scripted .failedReturn (fun i => decide (1 ≤ i)) (fun _ _ => false)) 2 0 [] =
      .returned 0
        [Event.InitWindow 640 480 "My Window!!" .failedReturn, Event.SetWindowState 4,
          Event.WindowShouldClose false, Event.BeginDrawing, Event.IsKeyDown 32 false,
          Event.ClearBackground SKYBLUE, Event.EndDrawing,
          Event.WindowShouldClose true, Event.CloseWindow] :=
  ⟨rfl, rfl, rfl⟩

/-- C5, amended: when the mocked `InitWindow` fails by ending the process with
`exit(status)`, the run ends right after the `InitWindow` call, so that no
frame call (and no other call) is made, and the exit status of the process is
`status` modulo 256, a value from 0 to 255 that is non-zero (a failure
indication) exactly when `status` is not a multiple of 256.  When the mocked
`InitWindow` returns, with the window created or not, `main` goes on in the
same way: it calls `SetWindowState` and runs the loop on the library's answers,
one iteration for each check answered false; at the first check answered true
it calls `CloseWindow` and returns `EXIT_SUCCESS`; while the checks are
answered false it is still running.  One of the two always applies, and
whenever `main` returns, it returns `EXIT_SUCCESS`. -/
theorem init_failure_outcome (m : Mock) (fuel : Nat) (argc : Int) (argv : List String) :
    (∀ status, m.initWindow 640 480 "My Window!!" = .failedExit status →
      main m fuel argc argv =
        .exited (status % 256) [Event.InitWindow 640 480 "My Window!!" (.failedExit status)] ∧
      0 ≤ status % 256 ∧ status % 256 < 256 ∧
      (status % 256 ≠ 0 ↔ ¬ (256 : Int) ∣ status) ∧
      ∀ e ∈ (main m fuel argc argv).trace, isFrameCall e = false) ∧
    ((m.initWindow 640 480 "My Window!!" = .failedReturn ∨
        m.initWindow 640 480 "My Window!!" = .created) →
      (∃ rest, (main m fuel argc argv).trace =
        Event.InitWindow 640 480 "My Window!!" (m.initWindow 640 480 "My Window!!") ::
          Event.SetWindowState FLAG_WINDOW_RESIZABLE :: rest) ∧
      (∀ ks : List Bool,
        answers m (prologue (m.initWindow 640 480 "My Window!!")) ks = true →
        (m.windowShouldClose (prologue (m.initWindow 640 480 "My Window!!") ++ iterations ks)
            = true → ks.length < fuel →
          main m fuel argc argv = .returned EXIT_SUCCESS
            (prologue (m.initWindow 640 480 "My Window!!") ++ iterations ks ++
              [Event.WindowShouldClose true, Event.CloseWindow])) ∧
        (ks.length = fuel →
          main m fuel argc argv = .running
            (prologue (m.initWindow 640 480 "My Window!!") ++ iterations ks))) ∧
      (∃ ks : List Bool,
        answers m (prologue (m.initWindow 640 480 "My Window!!")) ks = true ∧
        ((ks.length < fuel ∧ m.windowShouldClose
            (prologue (m.initWindow 640 480 "My Window!!") ++ iterations ks) = true) ∨
          ks.length = fuel)) ∧
      ∀ status t, main m fuel argc argv = .returned status t → status = EXIT_SUCCESS) := by
  constructor
  · intro status hi
    have hm : main m fuel argc argv =
        .exited (status % 256)
          [Event.InitWindow 640 480 "My Window!!" (.failedExit status)] := by
      simp [main, hi]
    refine ⟨hm, Int.emod_nonneg _ (by decide), Int.emod_lt_of_pos _ (by decide), ?_, ?_⟩
    · rw [Ne, Int.dvd_iff_emod_eq_zero]
    · rw [hm]
      intro e he
      simp only [Outcome.trace, List.mem_singleton] at he
      rw [he]
      rfl
  · intro hi
    have hret : ∀ status, m.initWindow 640 480 "My Window!!" ≠ .failedExit status := by
      intro status h
      rcases hi with hi | hi <;> rw [hi] at h <;> cases h
    refine ⟨?_, ?_, ?_, ?_⟩
    · obtain ⟨rest, hrest⟩ := main_contains_of_answers m fuel argc argv hret [] rfl
        (Nat.zero_le _)
      exact ⟨rest, by simpa [prologue, iterations] using hrest⟩
    · intro ks hans
      exact ⟨fun hclose hfuel => main_returns_of_answers m fuel argc argv hret ks hans hclose hfuel,
        fun hfuel => main_running_of_answers m fuel argc argv hret ks hans hfuel⟩
    · obtain ⟨ks, hans, h⟩ := loop_shape_answers m fuel
        (prologue (m.initWindow 640 480 "My Window!!"))
      refine ⟨ks, hans, ?_⟩
      rcases h with ⟨hl, hclose, _⟩ | ⟨hl, _⟩
      · exact Or.inl ⟨hl, hclose⟩
      · exact Or.inr hl
    · intro status t h
      exact (returned_shape m fuel argc argv status t h).1

/-- Witness for C5 as amended: a mocked `InitWindow` that ends the process by
`exit(1)`, `exit(256)` and `exit(-1)` gives the exit status 1, 0 and 255, each
after the `InitWindow` call alone; a mocked `InitWindow` that fails and
returns, against a library that signals the close request at the second check,
gives a run of one frame that returns `EXIT_SUCCESS`. -/
theorem init_failure_outcome_witness :
    main (scripted (.failedExit 1) (fun _ => false) (fun _ _ => false)) 5 0 [] =
      .exited 1 [Event.InitWindow 640 480 "My Window!!" (.failedExit 1)] ∧
    main (scripted (.failedExit 256) (fun _ => false) (fun _ _ => false)) 5 0 [] =
      .exited 0 [Event.InitWindow 640 480 "My Window!!" (.failedExit 256)] ∧
    main (scripted (.failedExit (-1)) (fun _ => false) (fun _ _ => false)) 5 0 [] =
      .exited 255 [Event.InitWindow 640 480 "My Window!!" (.failedExit (-1))] ∧
    main (scripted .failedReturn (fun i => decide (1 ≤ i)) (fun _ _ => false)) 2 0 [] =
      .returned EXIT_SUCCESS
        ([Event.InitWindow 640 480 "My Window!!" .failedReturn, Event.SetWindowState 4] ++
          iterations [false] ++ [Event.WindowShouldClose true, Event.CloseWindow]) :=
  ⟨((init_failure_outcome (scripted (.failedExit 1) (fun _ => false) (fun _ _ => false))
      5 0 []).1 1 rfl).1,
    ((init_failure_outcome (scripted (.failedExit 256) (fun _ => false) (fun _ _ => false))
      5 0 []).1 256 rfl).1,
    ((init_failure_outcome (scripted (.failedExit (-1)) (fun _ => false) (fun _ _ => false))
      5 0 []).1 (-1) rfl).1,
    (((init_failure_outcome (scripted .failedReturn (fun i => decide (1 ≤ i)) (fun _ _ => false))
      2 0 []).2 (Or.inl rfl)).2.1 [false] rfl).1 rfl (by decide)⟩

/-! ## C6: exit status -/

/-- C6: in every run of `main` in which a close-request check has answered
true, `main` returns, and with `EXIT_SUCCESS`; whenever `main` returns, the
status is `EXIT_SUCCESS`, which is 0. -/
theorem exit_status_success (m : Mock) (fuel : Nat) (argc : Int) (argv : List String) :
    (Event.WindowShouldClose true ∈ (main m fuel argc argv).trace →
      ∃ t, main m fuel argc argv = .returned EXIT_SUCCESS t) ∧
    (∀ status t, main m fuel argc argv = .returned status t →
      status = EXIT_SUCCESS ∧ status = 0) := by
  constructor
  · intro hmem
    rcases main_shape m fuel argc argv with ⟨s, _, hm⟩ | ⟨ks, _, ⟨_, hm⟩ | ⟨_, hm⟩⟩
    · rw [hm] at hmem
      simp [Outcome.trace] at hmem
    · exact ⟨_, hm⟩
    · rw [hm] at hmem
      simp only [Outcome.trace, prologue, List.cons_append, List.nil_append, List.mem_cons] at hmem
      rcases hmem with h | h | h
      · cases h
      · cases h
      · exact absurd h (closeTrue_not_mem_iterations ks)
  · intro status t h
    have := (returned_shape m fuel argc argv status t h).1
    exact ⟨this, by rw [this]; rfl⟩

/-- Witness for C6: the close request is signalled at the second check; the
run contains that answer and `main` returns 0. -/
theorem exit_status_success_witness :
    Event.WindowShouldClose true ∈
      (main (scripted .created (fun i => decide (1 ≤ i)) (fun _ _ => true)) 2 0 []).trace ∧
    ∃ t, main (scripted .created (fun i => decide (1 ≤ i)) (fun _ _ => true)) 2 0 [] =
      .returned EXIT_SUCCESS t :=
  have hmem : Event.WindowShouldClose true ∈
      (main (scripted .created (fun i => decide (1 ≤ i)) (fun _ _ => true)) 2 0 []).trace := by
    decide
  ⟨hmem, (exit_status_success (scripted .created (fun i => decide (1 ≤ i)) (fun _ _ => true))
    2 0 []).1 hmem⟩

/-! ## C7: the window is released once -/

/-- C7: the window is released exactly once, unconditionally once the loop has
terminated.  In every run in which `main` returns, `CloseWindow` is called
exactly once: it is the last call, it comes right after the close-request
check that ended the loop, and no call before it is a `CloseWindow`.  While
the loop is running no `CloseWindow` has been called, and none when the
library ends the process inside `InitWindow`.  Whenever the loop exits
(the `InitWindow` call having returned), `main` calls `CloseWindow` next and
returns.  And whatever the number of frames: for every list of key states
along which the library answers the checks with false and then answers true
(within the bound), `main` renders those frames, calls `CloseWindow` once and
returns. -/
theorem window_released_once (m : Mock) (fuel : Nat) (argc : Int) (argv : List String) :
    (∀ status t, main m fuel argc argv = .returned status t →
      t.count Event.CloseWindow = 1 ∧
      ∃ body, t = body ++ [Event.WindowShouldClose true, Event.CloseWindow] ∧
        Event.CloseWindow ∉ body ∧ Event.WindowShouldClose true ∉ body) ∧
    (∀ t, main m fuel argc argv = .running t → Event.CloseWindow ∉ t) ∧
    (∀ status t, main m fuel argc argv = .exited status t → Event.CloseWindow ∉ t) ∧
    (∀ out, (∀ status, m.initWindow 640 480 "My Window!!" ≠ .failedExit status) →
      loop m fuel (prologue (m.initWindow 640 480 "My Window!!")) = .exitedLoop out →
      main m fuel argc argv = .returned EXIT_SUCCESS (out ++ [Event.CloseWindow]) ∧
      Event.CloseWindow ∉ out) ∧
    (∀ ks : List Bool, (∀ status, m.initWindow 640 480 "My Window!!" ≠ .failedExit status) →
      answers m (prologue (m.initWindow 640 480 "My Window!!")) ks = true →
      m.windowShouldClose (prologue (m.initWindow 640 480 "My Window!!") ++ iterations ks)
        = true →
      ks.length < fuel →
      main m fuel argc argv = .returned EXIT_SUCCESS
        (prologue (m.initWindow 640 480 "My Window!!") ++ iterations ks ++
          [Event.WindowShouldClose true, Event.CloseWindow]) ∧
      (prologue (m.initWindow 640 480 "My Window!!") ++ iterations ks ++
          [Event.WindowShouldClose true, Event.CloseWindow]).count Event.CloseWindow = 1) := by
  have hbody : ∀ ks : List Bool, Event.CloseWindow ∉
      prologue (m.initWindow 640 480 "My Window!!") ++ iterations ks := by
    intro ks
    simp [prologue, closeWindow_not_mem_iterations]
  have hbody2 : ∀ ks : List Bool, Event.WindowShouldClose true ∉
      prologue (m.initWindow 640 480 "My Window!!") ++ iterations ks := by
    intro ks
    simp [prologue, closeTrue_not_mem_iterations]
  have hcount : ∀ ks : List Bool,
      (prologue (m.initWindow 640 480 "My Window!!") ++ iterations ks ++
        [Event.WindowShouldClose true, Event.CloseWindow]).count Event.CloseWindow = 1 := by
    intro ks
    rw [List.count_append, List.count_eq_zero_of_not_mem (hbody ks)]
    decide
  refine ⟨?_, ?_, ?_, ?_, ?_⟩
  · intro status t h
    obtain ⟨_, ks, _, ht⟩ := returned_shape m fuel argc argv status t h
    refine ⟨?_, _, ht, hbody ks, hbody2 ks⟩
    rw [ht]
    exact hcount ks
  · intro t h
    rcases main_shape m fuel argc argv with ⟨s, _, hm⟩ | ⟨ks, _, ⟨_, hm⟩ | ⟨_, hm⟩⟩
    · rw [hm] at h; cases h
    · rw [hm] at h; cases h
    · rw [hm] at h
      cases h
      exact hbody ks
  · intro status t h
    rcases main_shape m fuel argc argv with ⟨s, _, hm⟩ | ⟨ks, _, ⟨_, hm⟩ | ⟨_, hm⟩⟩
    · rw [hm] at h
      cases h
      simp
    · rw [hm] at h; cases h
    · rw [hm] at h; cases h
  · intro out hret hl
    have hm := main_of_loop m fuel argc argv hret
    rw [hl] at hm
    refine ⟨hm, ?_⟩
    obtain ⟨ks, ⟨_, h⟩ | ⟨_, h⟩⟩ := loop_shape m fuel
      (prologue (m.initWindow 640 480 "My Window!!"))
    · rw [h] at hl
      cases hl
      intro hmem
      rw [List.mem_append] at hmem
      rcases hmem with hmem | hmem
      · exact hbody ks hmem
      · simp at hmem
    · rw [h] at hl
      cases hl
  · intro ks hret hans hclose hfuel
    exact ⟨main_returns_of_answers m fuel argc argv hret ks hans hclose hfuel, hcount ks⟩

/-- Witness for C7: a run of two frames, closed at the third check, returns
after these frames with `CloseWindow` as its last call, called once; and so
does a run with no frame at all. -/
theorem window_released_once_witness :
    (main (scripted .created (fun i => decide (2 ≤ i)) (fun i _ => decide (i = 0))) 3 0 [] =
        .returned EXIT_SUCCESS
          ([Event.InitWindow 640 480 "My Window!!" .created, Event.SetWindowState 4] ++
            iterations [true, false] ++ [Event.WindowShouldClose true, Event.CloseWindow]) ∧
      ([Event.InitWindow 640 480 "My Window!!" .created, Event.SetWindowState 4] ++
            iterations [true, false] ++
            [Event.WindowShouldClose true, Event.CloseWindow]).count Event.CloseWindow = 1) ∧
    (main (scripted .created (fun _ => true) (fun _ _ => false)) 1 0 [] =
      .returned 0 [Event.InitWindow 640 480 "My Window!!" .created, Event.SetWindowState 4,
        Event.WindowShouldClose true, Event.CloseWindow] ∧
    [Event.InitWindow 640 480 "My Window!!" .created, Event.SetWindowState 4,
        Event.WindowShouldClose true, Event.CloseWindow].count Event.CloseWindow = 1) :=
  ⟨(window_released_once
      (scripted .created (fun i => decide (2 ≤ i)) (fun i _ => decide (i = 0))) 3 0 []).2.2.2.2
      [true, false] (fun _ h => by cases h) rfl rfl (by decide),
    rfl,
    ((window_released_once (scripted .created (fun _ => true) (fun _ _ => false)) 1 0 []).1
      0 _ rfl).1⟩

/-! ## C8: the window that is created -/

/-- C8: in every run in which the `InitWindow` call returns, the first call of
`main` is `InitWindow(640, 480, "My Window!!")`, the second is
`SetWindowState(FLAG_WINDOW_RESIZABLE)`, and none of the calls after these two
(every close-request check and every frame is among them) is an `InitWindow`
or a `SetWindowState`: one window is created, and the flag is set once, after
the creation and before the first check. -/
theorem window_created_once (m : Mock) (fuel : Nat) (argc : Int) (argv : List String)
    (hret : ∀ status, m.initWindow 640 480 "My Window!!" ≠ .failedExit status) :
    ∃ rest, (main m fuel argc argv).trace =
        Event.InitWindow 640 480 "My Window!!" (m.initWindow 640 480 "My Window!!") ::
          Event.SetWindowState FLAG_WINDOW_RESIZABLE :: rest ∧
      (∀ w h title result, Event.InitWindow w h title result ∉ rest) ∧
      (∀ flags, Event.SetWindowState flags ∉ rest) := by
  have hit : ∀ ks : List Bool, (∀ w h title result,
      Event.InitWindow w h title result ∉ iterations ks) ∧
      (∀ flags, Event.SetWindowState flags ∉ iterations ks) := by
    intro ks
    constructor
    · intro w h title result hmem
      obtain ⟨k, hk⟩ := mem_iterations ks _ hmem
      simp [iteration] at hk
    · intro flags hmem
      obtain ⟨k, hk⟩ := mem_iterations ks _ hmem
      simp [iteration] at hk
  rcases main_shape m fuel argc argv with ⟨s, hs, _⟩ | ⟨ks, _, ⟨_, hm⟩ | ⟨_, hm⟩⟩
  · exact absurd hs (hret s)
  · refine ⟨iterations ks ++ [Event.WindowShouldClose true, Event.CloseWindow],
      by simp [hm, Outcome.trace, prologue], ?_, ?_⟩
    · intro w h title result
      simp [(hit ks).1]
    · intro flags
      simp [(hit ks).2]
  · exact ⟨iterations ks, by simp [hm, Outcome.trace, prologue], (hit ks).1, (hit ks).2⟩

/-- Witness for C8: a run of one frame against a mock that creates the
window. -/
theorem window_created_once_witness :
    (∀ status, (scripted .created (fun i => decide (1 ≤ i)) (fun _ _ => true)).initWindow
      640 480 "My Window!!" ≠ .failedExit status) ∧
    ∃ rest, (main (scripted .created (fun i => decide (1 ≤ i)) (fun _ _ => true)) 2 0 []).trace =
        Event.InitWindow 640 480 "My Window!!" .created ::
          Event.SetWindowState FLAG_WINDOW_RESIZABLE :: rest ∧
      (∀ w h title result, Event.InitWindow w h title result ∉ rest) ∧
      (∀ flags, Event.SetWindowState flags ∉ rest) :=
  ⟨(fun _ h => by cases h),
    window_created_once (scripted .created (fun i => decide (1 ≤ i)) (fun _ _ => true)) 2 0 []
      (fun _ h => by cases h)⟩

/-! ## C9: frames are bracketed -/

/-- C9: in every run of `main`, whatever the mock answers.  Each loop
iteration issues a frame: every close-request check answered false is followed
by `BeginDrawing`, the query of the space key, one `ClearBackground` and
`EndDrawing`, in this order and with nothing in between, and every
`BeginDrawing` comes right after such a check.  In every prefix of the trace
the `BeginDrawing` and `EndDrawing` calls alternate (the prefix has as many
`EndDrawing` as `BeginDrawing` calls, or one `BeginDrawing` more), and the
whole trace has as many of the one as of the other; every `BeginDrawing` is
followed by the query, one `ClearBackground` and `EndDrawing`; every
`EndDrawing` and every `ClearBackground` sits in such a group.  So each frame
is opened and closed, and its only drawing call is the one `ClearBackground`.
And the iterations are really made: for every list of key states the mock
answers along the loop (within the bound), the run contains one such
iteration per key state. -/
theorem frames_bracketed (m : Mock) (fuel : Nat) (argc : Int) (argv : List String) :
    (∀ p rest, (main m fuel argc argv).trace = p ++ rest →
      framesDone p ≤ begins p ∧ begins p ≤ framesDone p + 1) ∧
    begins (main m fuel argc argv).trace = framesDone (main m fuel argc argv).trace ∧
    (∀ before after, (main m fuel argc argv).trace = before ++ Event.BeginDrawing :: after →
      ∃ down c rest, after = Event.IsKeyDown KEY_SPACE down :: Event.ClearBackground c ::
        Event.EndDrawing :: rest) ∧
    (∀ before after, (main m fuel argc argv).trace = before ++ Event.EndDrawing :: after →
      ∃ rest down c, before = rest ++ [Event.BeginDrawing, Event.IsKeyDown KEY_SPACE down,
        Event.ClearBackground c]) ∧
    (∀ before c after, (main m fuel argc argv).trace = before ++ Event.ClearBackground c :: after →
      ∃ rest down rest2, before = rest ++ [Event.BeginDrawing, Event.IsKeyDown KEY_SPACE down] ∧
        after = Event.EndDrawing :: rest2) ∧
    (∀ before after,
      (main m fuel argc argv).trace = before ++ Event.WindowShouldClose false :: after →
      ∃ down c rest, after = Event.BeginDrawing :: Event.IsKeyDown KEY_SPACE down ::
        Event.ClearBackground c :: Event.EndDrawing :: rest) ∧
    (∀ before after, (main m fuel argc argv).trace = before ++ Event.BeginDrawing :: after →
      ∃ rest, before = rest ++ [Event.WindowShouldClose false]) ∧
    closeChecks (main m fuel argc argv).trace =
      begins (main m fuel argc argv).trace +
        (main m fuel argc argv).trace.count (Event.WindowShouldClose true) ∧
    (∀ ks : List Bool, (∀ status, m.initWindow 640 480 "My Window!!" ≠ .failedExit status) →
      answers m (prologue (m.initWindow 640 480 "My Window!!")) ks = true →
      ks.length ≤ fuel →
      ∃ rest, (main m fuel argc argv).trace =
        prologue (m.initWindow 640 480 "My Window!!") ++ iterations ks ++ rest) := by
  have hb := balanced_main m fuel argc argv
  have hpos := everywhere_main
    (fun b e a =>
      (e = Event.BeginDrawing → ∃ down c rest, a = Event.IsKeyDown KEY_SPACE down ::
        Event.ClearBackground c :: Event.EndDrawing :: rest) ∧
      (e = Event.EndDrawing → ∃ rest down c, b = rest ++ [Event.BeginDrawing,
        Event.IsKeyDown KEY_SPACE down, Event.ClearBackground c]) ∧
      (∀ c, e = Event.ClearBackground c → ∃ rest down rest2,
        b = rest ++ [Event.BeginDrawing, Event.IsKeyDown KEY_SPACE down] ∧
        a = Event.EndDrawing :: rest2) ∧
      (e = Event.WindowShouldClose false → ∃ down c rest, a = Event.BeginDrawing ::
        Event.IsKeyDown KEY_SPACE down :: Event.ClearBackground c :: Event.EndDrawing :: rest) ∧
      (e = Event.BeginDrawing → ∃ rest, b = rest ++ [Event.WindowShouldClose false]))
    (by
      intro x b e a h
      refine ⟨h.1, ?_, ?_, h.2.2.2.1, ?_⟩
      · intro he
        obtain ⟨rest, down, c, hr⟩ := h.2.1 he
        exact ⟨x :: rest, down, c, by simp [hr]⟩
      · intro c he
        obtain ⟨rest, down, rest2, hr, ha⟩ := h.2.2.1 c he
        exact ⟨x :: rest, down, rest2, by simp [hr], ha⟩
      · intro he
        obtain ⟨rest, hr⟩ := h.2.2.2.2 he
        exact ⟨x :: rest, by simp [hr]⟩)
    (by
      intro k l b e a h
      rcases iteration_split k b e a h with ⟨rfl, rfl, rfl⟩ | ⟨rfl, rfl, rfl⟩ |
        ⟨rfl, rfl, rfl⟩ | ⟨rfl, rfl, rfl⟩ | ⟨rfl, rfl, rfl⟩
      · simp
      · refine ⟨by simp, by simp, by simp, by simp, ?_⟩
        intro _
        exact ⟨[], by simp⟩
      · simp
      · refine ⟨by simp, by simp, ?_, by simp, by simp⟩
        intro c _
        exact ⟨[Event.WindowShouldClose false], k, l, by simp, by simp⟩
      · refine ⟨by simp, ?_, by simp, by simp, by simp⟩
        intro _
        exact ⟨[Event.WindowShouldClose false], k, if k then PURPLE else SKYBLUE, by simp⟩)
    (by
      intro b e a he
      refine ⟨?_, ?_, ?_, ?_, ?_⟩
      · intro h; subst h; simp [isLifecycleCall] at he
      · intro h; subst h; simp [isLifecycleCall] at he
      · intro c h; subst h; simp [isLifecycleCall] at he
      · intro h; subst h; simp [isLifecycleCall] at he
      · intro h; subst h; simp [isLifecycleCall] at he)
    m fuel argc argv
  refine ⟨hb.1, hb.2, ?_, ?_, ?_, ?_, ?_, ?_, ?_⟩
  · intro before after h
    exact (hpos before _ after h).1 rfl
  · intro before after h
    exact (hpos before _ after h).2.1 rfl
  · intro before c after h
    exact (hpos before _ after h).2.2.1 c rfl
  · intro before after h
    exact (hpos before _ after h).2.2.2.1 rfl
  · intro before after h
    exact (hpos before _ after h).2.2.2.2 rfl
  · have hnot : ∀ ks : List Bool, (iterations ks).count (Event.WindowShouldClose true) = 0 :=
      fun ks => List.count_eq_zero_of_not_mem (closeTrue_not_mem_iterations ks)
    rcases main_shape m fuel argc argv with ⟨s, _, hm⟩ | ⟨ks, _, ⟨_, hm⟩ | ⟨_, hm⟩⟩
    · rw [hm]; rfl
    · rw [hm]
      simp only [Outcome.trace, closeChecks_append, begins_append, List.count_append,
        closeChecks_iterations, begins_iterations, hnot]
      have h1 : closeChecks (prologue (m.initWindow 640 480 "My Window!!")) = 0 := rfl
      have h2 : begins (prologue (m.initWindow 640 480 "My Window!!")) = 0 := rfl
      have h3 : (prologue (m.initWindow 640 480 "My Window!!")).count
          (Event.WindowShouldClose true) = 0 := by
        apply List.count_eq_zero_of_not_mem
        simp [prologue]
      rw [h1, h2, h3]
      have h4 : closeChecks [Event.WindowShouldClose true, Event.CloseWindow] = 1 := rfl
      have h5 : begins [Event.WindowShouldClose true, Event.CloseWindow] = 0 := rfl
      have h6 : [Event.WindowShouldClose true, Event.CloseWindow].count
          (Event.WindowShouldClose true) = 1 := by decide
      rw [h4, h5, h6]
    · rw [hm]
      simp only [Outcome.trace, closeChecks_append, begins_append, List.count_append,
        closeChecks_iterations, begins_iterations, hnot]
      have h1 : closeChecks (prologue (m.initWindow 640 480 "My Window!!")) = 0 := rfl
      have h2 : begins (prologue (m.initWindow 640 480 "My Window!!")) = 0 := rfl
      have h3 : (prologue (m.initWindow 640 480 "My Window!!")).count
          (Event.WindowShouldClose true) = 0 := by
        apply List.count_eq_zero_of_not_mem
        simp [prologue]
      rw [h1, h2, h3]
      omega
  · intro ks hret hans hfuel
    exact main_contains_of_answers m fuel argc argv hret ks hans hfuel

/-- Witness for C9: in a run of two iterations, the second close-request
check, answered false, is followed by `BeginDrawing`, the key query, one
`ClearBackground` and `EndDrawing`; and the first `BeginDrawing` is followed
by the key query, one `ClearBackground` and `EndDrawing`. -/
theorem frames_bracketed_witness :
    (main (scripted .created (fun i => decide (2 ≤ i)) (fun i _ => decide (i = 0))) 3 0 []).trace =
      [Event.InitWindow 640 480 "My Window!!" .created, Event.SetWindowState 4,
        Event.WindowShouldClose false, Event.BeginDrawing, Event.IsKeyDown 32 true,
        Event.ClearBackground PURPLE, Event.EndDrawing] ++ Event.WindowShouldClose false ::
      [Event.BeginDrawing, Event.IsKeyDown 32 false, Event.ClearBackground SKYBLUE,
        Event.EndDrawing, Event.WindowShouldClose true, Event.CloseWindow] ∧
    (∃ down c rest,
      [Event.BeginDrawing, Event.IsKeyDown 32 false, Event.ClearBackground SKYBLUE,
        Event.EndDrawing, Event.WindowShouldClose true, Event.CloseWindow] =
      Event.BeginDrawing :: Event.IsKeyDown KEY_SPACE down :: Event.ClearBackground c ::
        Event.EndDrawing :: rest) ∧
    (∃ down c rest,
      [Event.IsKeyDown 32 true, Event.ClearBackground PURPLE, Event.EndDrawing,
        Event.WindowShouldClose false, Event.BeginDrawing, Event.IsKeyDown 32 false,
        Event.ClearBackground SKYBLUE, Event.EndDrawing, Event.WindowShouldClose true,
        Event.CloseWindow] =
      Event.IsKeyDown KEY_SPACE down :: Event.ClearBackground c :: Event.EndDrawing :: rest) :=
  ⟨rfl,
    (frames_bracketed
      (scripted .created (fun i => decide (2 ≤ i)) (fun i _ => decide (i = 0))) 3 0 []).2.2.2.2.2.1
      [Event.InitWindow 640 480 "My Window!!" .created, Event.SetWindowState 4,
        Event.WindowShouldClose false, Event.BeginDrawing, Event.IsKeyDown 32 true,
        Event.ClearBackground PURPLE, Event.EndDrawing]
      [Event.BeginDrawing, Event.IsKeyDown 32 false, Event.ClearBackground SKYBLUE,
        Event.EndDrawing, Event.WindowShouldClose true, Event.CloseWindow] rfl,
    (frames_bracketed
      (scripted .created (fun i => decide (2 ≤ i)) (fun i _ => decide (i = 0))) 3 0 []).2.2.1
      [Event.InitWindow 640 480 "My Window!!" .created, Event.SetWindowState 4,
        Event.WindowShouldClose false]
      [Event.IsKeyDown 32 true, Event.ClearBackground PURPLE, Event.EndDrawing,
        Event.WindowShouldClose false, Event.BeginDrawing, Event.IsKeyDown 32 false,
        Event.ClearBackground SKYBLUE, Event.EndDrawing, Event.WindowShouldClose true,
        Event.CloseWindow] rfl⟩

/-! ## C10: the only input is the space key -/

/-- C10: in every run of `main`, whatever the mock answers: every key-state
query in the trace is `IsKeyDown(KEY_SPACE)`, it is made right after the
`BeginDrawing` of a frame and is followed by that frame's `ClearBackground`
and `EndDrawing`; every `BeginDrawing` is followed at once by such a query;
there are as many queries as frames begun, so each frame makes exactly one.
The run does not depend on `argc` and `argv`. -/
theorem only_space_key_read (m : Mock) (fuel : Nat) (argc : Int) (argv : List String) :
    (∀ before key result after,
      (main m fuel argc argv).trace = before ++ Event.IsKeyDown key result :: after →
      key = KEY_SPACE ∧ ∃ rest c rest2, before = rest ++ [Event.BeginDrawing] ∧
        after = Event.ClearBackground c :: Event.EndDrawing :: rest2) ∧
    (∀ before after, (main m fuel argc argv).trace = before ++ Event.BeginDrawing :: after →
      ∃ down rest, after = Event.IsKeyDown KEY_SPACE down :: rest) ∧
    keyQueries (main m fuel argc argv).trace = begins (main m fuel argc argv).trace ∧
    (∀ (argc2 : Int) (argv2 : List String), main m fuel argc2 argv2 = main m fuel argc argv) := by
  have hpos := everywhere_main
    (fun b e a =>
      (∀ key result, e = Event.IsKeyDown key result →
        key = KEY_SPACE ∧ ∃ rest c rest2, b = rest ++ [Event.BeginDrawing] ∧
          a = Event.ClearBackground c :: Event.EndDrawing :: rest2) ∧
      (e = Event.BeginDrawing → ∃ down rest, a = Event.IsKeyDown KEY_SPACE down :: rest))
    (by
      intro x b e a h
      refine ⟨?_, h.2⟩
      intro key result he
      obtain ⟨hk, rest, c, rest2, hr, ha⟩ := h.1 key result he
      exact ⟨hk, x :: rest, c, rest2, by simp [hr], ha⟩)
    (by
      intro k l b e a h
      rcases iteration_split k b e a h with ⟨rfl, rfl, rfl⟩ | ⟨rfl, rfl, rfl⟩ |
        ⟨rfl, rfl, rfl⟩ | ⟨rfl, rfl, rfl⟩ | ⟨rfl, rfl, rfl⟩
      · simp
      · simp
      · refine ⟨?_, by simp⟩
        intro key result he
        simp only [Event.IsKeyDown.injEq] at he
        exact ⟨he.1.symm, [Event.WindowShouldClose false], if k then PURPLE else SKYBLUE, l,
          by simp, by simp⟩
      · simp
      · simp)
    (by
      intro b e a he
      refine ⟨?_, ?_⟩
      · intro key result h; subst h; simp [isLifecycleCall] at he
      · intro h; subst h; simp [isLifecycleCall] at he)
    m fuel argc argv
  refine ⟨?_, ?_, queries_eq_begins m fuel argc argv, ?_⟩
  · intro before key result after h
    exact (hpos before _ after h).1 key result rfl
  · intro before after h
    exact (hpos before _ after h).2 rfl
  · intro argc2 argv2
    rfl

/-- Witness for C10: in a run of one frame the one query is that of key 32,
the space key, between `BeginDrawing` and `ClearBackground`. -/
theorem only_space_key_read_witness :
    (main (scripted .created (fun i => decide (1 ≤ i)) (fun _ _ => true)) 2 0 []).trace =
      [Event.InitWindow 640 480 "My Window!!" .created, Event.SetWindowState 4,
        Event.WindowShouldClose false, Event.BeginDrawing] ++ Event.IsKeyDown 32 true ::
      [Event.ClearBackground PURPLE, Event.EndDrawing,
        Event.WindowShouldClose true, Event.CloseWindow] ∧
    (32 : Int) = KEY_SPACE :=
  ⟨rfl, ((only_space_key_read (scripted .created (fun i => decide (1 ≤ i)) (fun _ _ => true))
    2 0 []).1
    [Event.InitWindow 640 480 "My Window!!" .created, Event.SetWindowState 4,
      Event.WindowShouldClose false, Event.BeginDrawing] 32 true
    [Event.ClearBackground PURPLE, Event.EndDrawing,
      Event.WindowShouldClose true, Event.CloseWindow] rfl).1⟩

end RaylibTemplate
